import Mathlib

/-!
Shallow embedding of the trading-bot repository (Nifty/GoldM futures and
CE-hedge scripts) and proofs about its calendar arithmetic, contract naming,
position reconciliation, order execution and rebalance matching.

Dates are embedded as proleptic-Gregorian ordinals (`Int`), exactly Python's
`date.toordinal()`: ordinal 1 is 0001-01-01, a Monday, so Python's
`date.weekday()` (Monday = 0) is `(o + 6) % 7`.  The three hard-coded
holidays `["2025-04-10", "2025-04-14", "2025-05-01"]` have ordinals
739351, 739355 and 739372.
-/

namespace Strategy1

/-- `mcx_holidays` from both futures scripts, as date ordinals
(2025-04-10 = 739351, 2025-04-14 = 739355, 2025-05-01 = 739372). -/
def mcx_holidays : List Int := [739351, 739355, 739372]

/-- Python `date.weekday()` on an ordinal: Monday = 0 … Sunday = 6. -/
def weekday (o : Int) : Int := (o + 6) % 7

/-- `is_trading_day` (identical in `Nifty_futuresbot_3lots.py` and
`goldm_futures_15lots.py`): not a listed holiday and `weekday < 5`. -/
def is_trading_day (d : Int) : Bool :=
  !(mcx_holidays.contains d) && decide (weekday d < 5)

/-- The `while count < 6` loop of `get_rollover_date`, with explicit fuel.
Each iteration steps one day back and counts trading days.  `rolloverGo_spec`
shows fuel 42 always suffices, so `get_rollover_date` below equals the
Python loop's (always-terminating) result. -/
def rolloverGo : Nat → Nat → Int → Int
  | 0, _, day => day
  | fuel + 1, count, day =>
    if 6 ≤ count then day
    else if is_trading_day (day - 1) then rolloverGo fuel (count + 1) (day - 1)
    else rolloverGo fuel count (day - 1)

/-- `get_rollover_date(expiry)` from both futures scripts. -/
def get_rollover_date (expiry : Int) : Int := rolloverGo 42 0 expiry

/-- Number of trading days in the half-open interval `[a, b)`. -/
def tradingCount (a b : Int) : Nat :=
  ((Finset.Ico a b).filter (fun d => is_trading_day d = true)).card

lemma tradingCount_self (a : Int) : tradingCount a a = 0 := by
  simp [tradingCount]

lemma tradingCount_split {a b c : Int} (hab : a ≤ b) (hbc : b ≤ c) :
    tradingCount a c = tradingCount a b + tradingCount b c := by
  unfold tradingCount
  rw [← Finset.Ico_union_Ico_eq_Ico hab hbc, Finset.filter_union,
    Finset.card_union_of_disjoint]
  exact Finset.disjoint_filter_filter (Finset.Ico_disjoint_Ico_consecutive a b c)

lemma tradingCount_singleton (a : Int) :
    tradingCount a (a + 1) = if is_trading_day a then 1 else 0 := by
  have h : Finset.Ico a (a + 1) = {a} := by
    ext x
    simp only [Finset.mem_Ico, Finset.mem_singleton]
    omega
  unfold tradingCount
  rw [h]
  by_cases hd : is_trading_day a <;>
    simp [Finset.filter_singleton, hd]

lemma tradingCount_pred_left {a b : Int} (h : a ≤ b) :
    tradingCount (a - 1) b
      = (if is_trading_day (a - 1) then 1 else 0) + tradingCount a b := by
  have hs : tradingCount (a - 1) b = tradingCount (a - 1) a + tradingCount a b :=
    tradingCount_split (by omega) h
  have hone : tradingCount (a - 1) a = if is_trading_day (a - 1) then 1 else 0 := by
    have h2 := tradingCount_singleton (a - 1)
    rw [sub_add_cancel] at h2
    exact h2
  rw [hs, hone]

lemma tradingCount_pos_of_mem {a t b : Int} (hat : a ≤ t) (htb : t < b)
    (ht : is_trading_day t = true) : 1 ≤ tradingCount a b := by
  have : t ∈ (Finset.Ico a b).filter (fun d => is_trading_day d = true) := by
    simp [Finset.mem_filter, Finset.mem_Ico, hat, htb, ht]
  exact Finset.card_pos.mpr ⟨t, this⟩

/-- In any 7-day window there is a trading day: the unique day ≡ 2 (mod 7)
is a Tuesday and none of the three holidays falls on a Tuesday. -/
lemma exists_trading_in_window (d : Int) :
    ∃ t, d - 7 ≤ t ∧ t < d ∧ is_trading_day t = true := by
  refine ⟨d - 1 - (d - 3) % 7, ?_, ?_, ?_⟩
  · omega
  · omega
  · have hmod : (d - 1 - (d - 3) % 7) % 7 = 2 := by omega
    have h1 : d - 1 - (d - 3) % 7 ≠ 739351 := by omega
    have h2 : d - 1 - (d - 3) % 7 ≠ 739355 := by omega
    have h3 : d - 1 - (d - 3) % 7 ≠ 739372 := by omega
    have h4 : weekday (d - 1 - (d - 3) % 7) < 5 := by unfold weekday; omega
    simp [is_trading_day, mcx_holidays, h1, h2, h3, h4]

lemma tradingCount_window_pos (d : Int) : 1 ≤ tradingCount (d - 7) d := by
  obtain ⟨t, h1, h2, h3⟩ := exists_trading_in_window d
  exact tradingCount_pos_of_mem h1 h2 h3

lemma tradingCount_six (d : Int) : 6 ≤ tradingCount (d - 42) d := by
  have s1 := tradingCount_split (a := d - 42) (b := d - 35) (c := d)
    (by omega) (by omega)
  have s2 := tradingCount_split (a := d - 35) (b := d - 28) (c := d)
    (by omega) (by omega)
  have s3 := tradingCount_split (a := d - 28) (b := d - 21) (c := d)
    (by omega) (by omega)
  have s4 := tradingCount_split (a := d - 21) (b := d - 14) (c := d)
    (by omega) (by omega)
  have s5 := tradingCount_split (a := d - 14) (b := d - 7) (c := d)
    (by omega) (by omega)
  have w1 := tradingCount_window_pos (d - 35)
  have w2 := tradingCount_window_pos (d - 28)
  have w3 := tradingCount_window_pos (d - 21)
  have w4 := tradingCount_window_pos (d - 14)
  have w5 := tradingCount_window_pos (d - 7)
  have w6 := tradingCount_window_pos d
  have e1 : d - 35 - 7 = d - 42 := by omega
  have e2 : d - 28 - 7 = d - 35 := by omega
  have e3 : d - 21 - 7 = d - 28 := by omega
  have e4 : d - 14 - 7 = d - 21 := by omega
  have e5 : d - 7 - 7 = d - 14 := by omega
  rw [e1] at w1; rw [e2] at w2; rw [e3] at w3; rw [e4] at w4; rw [e5] at w5
  omega

lemma rolloverGo_six (fuel : Nat) (count : Nat) (day : Int) (h : 6 ≤ count) :
    rolloverGo fuel count day = day := by
  cases fuel with
  | zero => rfl
  | succ n => simp [rolloverGo, h]

/-- Invariant of the rollover loop: given enough trading days within reach of
the remaining fuel, the loop returns a strictly earlier trading day with
exactly `6 - count` trading days between the result (inclusive) and the
start day (exclusive). -/
lemma rolloverGo_spec : ∀ (fuel : Nat) (count : Nat) (day : Int),
    count < 6 → 6 ≤ tradingCount (day - fuel) day + count →
    rolloverGo fuel count day < day ∧
    is_trading_day (rolloverGo fuel count day) = true ∧
    tradingCount (rolloverGo fuel count day) day + count = 6 := by
  intro fuel
  induction fuel with
  | zero =>
    intro count day hc hcnt
    simp only [Nat.cast_zero, sub_zero, tradingCount_self] at hcnt
    omega
  | succ n ih =>
    intro count day hc hcnt
    have hnotsix : ¬ (6 ≤ count) := by omega
    rw [rolloverGo, if_neg hnotsix]
    push_cast at hcnt
    have hcast : day - ((n : Int) + 1) = (day - 1) - n := by omega
    rw [hcast] at hcnt
    rw [tradingCount_split (a := (day - 1) - n) (b := day - 1) (c := day)
      (by omega) (by omega)] at hcnt
    by_cases htd : is_trading_day (day - 1) = true
    · rw [if_pos htd]
      have hone : tradingCount (day - 1) day = 1 := by
        have hp := tradingCount_pred_left (a := day) (b := day) (le_refl day)
        rw [tradingCount_self, if_pos htd] at hp
        omega
      rw [hone] at hcnt
      by_cases hlast : count + 1 = 6
      · rw [rolloverGo_six n (count + 1) (day - 1) (by omega)]
        refine ⟨by omega, htd, ?_⟩
        omega
      · have hc' : count + 1 < 6 := by omega
        have hcnt' : 6 ≤ tradingCount ((day - 1) - n) (day - 1) + (count + 1) := by
          omega
        obtain ⟨ih1, ih2, ih3⟩ := ih (count + 1) (day - 1) hc' hcnt'
        refine ⟨by omega, ih2, ?_⟩
        have hle : rolloverGo n (count + 1) (day - 1) ≤ day - 1 := by omega
        rw [tradingCount_split hle (by omega : (day : Int) - 1 ≤ day), hone]
        omega
    · rw [if_neg htd]
      have hzero : tradingCount (day - 1) day = 0 := by
        have hp := tradingCount_pred_left (a := day) (b := day) (le_refl day)
        rw [tradingCount_self, if_neg htd] at hp
        omega
      rw [hzero] at hcnt
      have hcnt' : 6 ≤ tradingCount ((day - 1) - n) (day - 1) + count := by
        omega
      obtain ⟨ih1, ih2, ih3⟩ := ih count (day - 1) hc hcnt'
      refine ⟨by omega, ih2, ?_⟩
      have hle : rolloverGo n count (day - 1) ≤ day - 1 := by omega
      rw [tradingCount_split hle (by omega : (day : Int) - 1 ≤ day), hzero]
      omega

/-- C1: for every expiry date, `get_rollover_date(expiry)` is strictly before
the expiry, is itself a trading day, exactly 6 trading days lie in the
half-open interval `[rollover, expiry)`, and it is the unique trading day
with that property (the 6th trading day counted backward from expiry). -/
theorem C1_rollover_date_spec (expiry : Int) :
    get_rollover_date expiry < expiry ∧
    is_trading_day (get_rollover_date expiry) = true ∧
    tradingCount (get_rollover_date expiry) expiry = 6 ∧
    (∀ r : Int, is_trading_day r = true → tradingCount r expiry = 6 →
      r = get_rollover_date expiry) := by
  have hcnt : 6 ≤ tradingCount (expiry - (42 : Nat)) expiry + 0 := by
    push_cast
    simpa using tradingCount_six expiry
  obtain ⟨h1, h2, h3⟩ := rolloverGo_spec 42 0 expiry (by omega) hcnt
  rw [Nat.add_zero] at h3
  have hg : get_rollover_date expiry = rolloverGo 42 0 expiry := rfl
  rw [← hg] at h1 h2 h3
  refine ⟨h1, h2, h3, ?_⟩
  intro r hr hr6
  by_contra hne
  rcases lt_trichotomy r (get_rollover_date expiry) with hlt | heq | hgt
  · have hsplit : tradingCount r expiry
        = tradingCount r (get_rollover_date expiry)
          + tradingCount (get_rollover_date expiry) expiry :=
      tradingCount_split (le_of_lt hlt) (le_of_lt h1)
    have hpos : 1 ≤ tradingCount r (get_rollover_date expiry) :=
      tradingCount_pos_of_mem (le_refl r) hlt hr
    omega
  · exact hne heq
  · have hre : r ≤ expiry := by
      by_contra hgt2
      have : tradingCount r expiry = 0 := by
        unfold tradingCount
        rw [Finset.Ico_eq_empty (by omega)]
        simp
      omega
    have hsplit : tradingCount (get_rollover_date expiry) expiry
        = tradingCount (get_rollover_date expiry) r + tradingCount r expiry :=
      tradingCount_split (le_of_lt hgt) hre
    have hpos : 1 ≤ tradingCount (get_rollover_date expiry) r :=
      tradingCount_pos_of_mem (le_refl _) hgt h2
    omega

/-- Concrete instance of C1 at the June 2025 expiry (2025-06-26, ordinal
739428): the computed rollover date is earlier, a trading day, and has
exactly 6 trading days up to the expiry. -/
theorem C1_rollover_date_witness :
    get_rollover_date 739428 < 739428 ∧
    is_trading_day (get_rollover_date 739428) = true ∧
    tradingCount (get_rollover_date 739428) 739428 = 6 := by
  have h := C1_rollover_date_spec 739428
  exact ⟨h.1, h.2.1, h.2.2.1⟩

/-! ### Contract Namer (`Nifty_futuresbot_3lots.py`)

Strings are handled at the character-list level so that all definitions
compute by structural recursion.  `charLower`/`charUpper` are ASCII case
maps, which is what Python's `str.upper`/`strptime`'s case-insensitive
month matching amount to on this ASCII-only domain. -/

def charLower (c : Char) : Char :=
  if 'A' ≤ c ∧ c ≤ 'Z' then Char.ofNat (c.toNat + 32) else c

def charUpper (c : Char) : Char :=
  if 'a' ≤ c ∧ c ≤ 'z' then Char.ofNat (c.toNat - 32) else c

def lowerChars (l : List Char) : List Char := l.map charLower

def strUpper (s : String) : String := String.mk (s.data.map charUpper)

/-- Python slice `s[a:b]` for `0 ≤ a ≤ b` (clamps at the end of the string). -/
def pySlice (s : String) (a b : Nat) : String :=
  String.mk ((s.data.drop a).take (b - a))

/-- The C-locale month abbreviations produced by `strftime('%b')` and
accepted by `strptime(_, "%b")`. -/
def month_abbrevs : List String :=
  ["Jan", "Feb", "Mar", "Apr", "May", "Jun", "Jul", "Aug", "Sep", "Oct", "Nov", "Dec"]

/-- `datetime.strptime(month_str, "%b").month`: case-insensitive match against
the month abbreviation table; `none` models the `ValueError` path. -/
def parse_month_abb (s : String) : Option Nat :=
  match month_abbrevs.findIdx? (fun a => lowerChars a.data == lowerChars s.data) with
  | some i => some (i + 1)
  | none => none

def charDigit? (c : Char) : Option Nat :=
  if '0' ≤ c ∧ c ≤ '9' then some (c.toNat - 48) else none

def digitsValGo : Nat → List Char → Option Nat
  | acc, [] => some acc
  | acc, c :: cs =>
    match charDigit? c with
    | some d => digitsValGo (10 * acc + d) cs
    | none => none

/-- Python `int(s)` restricted to plain decimal digit strings; `none` models
the `ValueError` path.  (Python also tolerates surrounding whitespace, a
sign and digit-group underscores; on the two-character slices reachable
here those variants can only produce years below 210, which land in the
same 50-lot branch as a parse failure, so this restriction does not change
any `get_nifty_lot_size` result.) -/
def pyIntParse (s : String) : Option Nat :=
  match s.data with
  | [] => none
  | c :: cs => digitsValGo 0 (c :: cs)

/-- `get_contract_symbol(year, month)` from `Nifty_futuresbot_3lots.py`:
`f"NIFTY{str(year)[2:]}{datetime(year, month, 1).strftime('%b').upper()}FUT"`. -/
def get_contract_symbol (year month : Nat) : String :=
  "NIFTY" ++ String.mk ((toString year).data.drop 2)
    ++ strUpper (month_abbrevs.getD (month - 1) "") ++ "FUT"

/-- `get_nifty_lot_size(symbol)`: parse `symbol[7:10]` as a month and
`"20" + symbol[5:7]` as a year; 75 from March 2025 onward, otherwise (and
on any parse failure) the 50-lot fallback. -/
def get_nifty_lot_size (symbol : String) : Nat :=
  let month_str := pySlice symbol 7 10
  let year_str := pySlice symbol 5 7
  match parse_month_abb month_str with
  | none => 50
  | some month =>
    match pyIntParse ("20" ++ year_str) with
    | none => 50
    | some year => if 2025 < year ∨ (year = 2025 ∧ 3 ≤ month) then 75 else 50

/-- The lot-size boundary rule itself, keyed by the actual expiry
year/month: 75 lots for expiries from March 2025 onward, 50 before. -/
def nifty_lot_size_rule (year month : Nat) : Nat :=
  if 2025 < year ∨ (year = 2025 ∧ 3 ≤ month) then 75 else 50

/-- C8 counterexample: the claim quantifies over every `(year, month)`, but
`get_contract_symbol 1930 6` encodes the two-digit year "30", which the
lookup reads back as 2030 and maps to 75 — not the 50 lots the boundary
rule assigns to the June 1930 expiry. -/
theorem C8_lot_size_counterexample :
    get_contract_symbol 1930 6 = "NIFTY30JUNFUT" ∧
    get_nifty_lot_size (get_contract_symbol 1930 6) = 75 ∧
    nifty_lot_size_rule 1930 6 = 50 ∧
    get_nifty_lot_size (get_contract_symbol 1930 6) ≠ nifty_lot_size_rule 1930 6 := by
  refine ⟨by decide, by decide, by decide, by decide⟩

/-- C8 (amended): for every year in the two-digit-century range 2000–2099
and every month 1–12, the lot size looked up from the generated contract
symbol agrees with the expiry month's boundary rule; malformed symbols
fall back to 50 by construction of `get_nifty_lot_size`. -/
theorem C8_lot_size_of_contract_symbol (year month : Nat)
    (hy1 : 2000 ≤ year) (hy2 : year ≤ 2099) (hm1 : 1 ≤ month) (hm2 : month ≤ 12) :
    get_nifty_lot_size (get_contract_symbol year month)
      = nifty_lot_size_rule year month := by
  have h : ∀ a : Nat, a < 100 → ∀ b : Nat, b < 12 →
      get_nifty_lot_size (get_contract_symbol (2000 + a) (b + 1))
        = nifty_lot_size_rule (2000 + a) (b + 1) := by decide
  have hy : year = 2000 + (year - 2000) := by omega
  have hm : month = (month - 1) + 1 := by omega
  rw [hy, hm]
  exact h (year - 2000) (by omega) (month - 1) (by omega)

/-- Witness for C8 at the boundary month itself: the March 2025 contract
symbol looks up to the stepped-up 75-lot size. -/
theorem C8_lot_size_witness :
    get_nifty_lot_size (get_contract_symbol 2025 3) = nifty_lot_size_rule 2025 3 :=
  C8_lot_size_of_contract_symbol 2025 3 (by decide) (by decide) (by decide) (by decide)

/-! ### Hedge Rebalance Planner: target strike distribution -/

/-- `get_ce_strike_distribution(fut_price)` from `Nifty_hedgebot_3lots.py`:
`base = int((fut_price + 99) // 100) * 100`, returning the dict
`{base + 300: 1, base + 400: 1, base + 500: 1}` in insertion order.
Prices are embedded as exact rationals; `//` is floor division. -/
def get_ce_strike_distribution (fut_price : ℚ) : List (Int × Int) :=
  let base : Int := ⌊(fut_price + 99) / 100⌋ * 100
  [(base + 300, 1), (base + 400, 1), (base + 500, 1)]

/-- Modelled from the spec: "rounds the price up to the nearest fixed step"
(100 points), then maps `base+300`, `base+400`, `base+500` to 1 lot each. -/
def strike_distribution_spec (fut_price : ℚ) : List (Int × Int) :=
  let base : Int := ⌈fut_price / 100⌉ * 100
  [(base + 300, 1), (base + 400, 1), (base + 500, 1)]

lemma floor_add99_div100 (n : Int) :
    ⌊((n : ℚ) + 99) / 100⌋ = ⌈(n : ℚ) / 100⌉ := by
  have h100 : (0 : ℚ) < 100 := by norm_num
  have h1 : (n : ℚ) / 100 ≤ (⌈(n : ℚ) / 100⌉ : ℚ) := Int.le_ceil _
  have h2 : (⌈(n : ℚ) / 100⌉ : ℚ) < (n : ℚ) / 100 + 1 := Int.ceil_lt_add_one _
  have h3 : (n : ℚ) ≤ (⌈(n : ℚ) / 100⌉ : ℚ) * 100 := by
    rw [div_le_iff₀ h100] at h1
    exact h1
  have h4 : ((⌈(n : ℚ) / 100⌉ : ℚ) - 1) * 100 < (n : ℚ) := by
    rw [← sub_lt_iff_lt_add] at h2
    rw [← lt_div_iff₀ h100]
    linarith
  have h3' : n ≤ ⌈(n : ℚ) / 100⌉ * 100 := by exact_mod_cast h3
  have h4' : (⌈(n : ℚ) / 100⌉ - 1) * 100 < n := by exact_mod_cast h4
  have h5 : ⌈(n : ℚ) / 100⌉ * 100 ≤ n + 99 := by omega
  have h6 : n + 99 < (⌈(n : ℚ) / 100⌉ + 1) * 100 := by omega
  rw [Int.floor_eq_iff]
  constructor
  · rw [le_div_iff₀ h100]
    exact_mod_cast h5
  · rw [div_lt_iff₀ h100]
    exact_mod_cast h6

/-- C7 counterexample: for the fractional price 24500.5 the code's base is
`⌊(24500.5+99)/100⌋·100 = 24500`, although rounding 24500.5 *up* to the
nearest multiple of 100 gives 24600 — so "rounds the price up" fails on
non-integer prices. -/
theorem C7_distribution_counterexample :
    get_ce_strike_distribution (49001 / 2)
      = [(24800, 1), (24900, 1), (25000, 1)] ∧
    strike_distribution_spec (49001 / 2)
      = [(24900, 1), (25000, 1), (25100, 1)] ∧
    get_ce_strike_distribution (49001 / 2) ≠ strike_distribution_spec (49001 / 2) := by
  have hf : (⌊((49001 : ℚ) / 2 + 99) / 100⌋ : Int) = 245 := by
    rw [Int.floor_eq_iff] ; norm_num
  have hc : (⌈((49001 : ℚ) / 2) / 100⌉ : Int) = 246 := by
    rw [Int.ceil_eq_iff] ; norm_num
  refine ⟨?_, ?_, ?_⟩
  · simp only [get_ce_strike_distribution, hf]
    norm_num
  · simp only [strike_distribution_spec, hc]
    norm_num
  · simp only [get_ce_strike_distribution, strike_distribution_spec, hf, hc]
    norm_num

/-- C7 (amended): at the quoted price 24560 the distribution is exactly
`{24900: 1, 25000: 1, 25100: 1}`, and for every integer-valued price the
base is the price rounded up to the nearest multiple of 100 with offsets
+300/+400/+500 mapped to one lot each. -/
theorem C7_distribution_spec :
    get_ce_strike_distribution 24560 = [(24900, 1), (25000, 1), (25100, 1)] ∧
    ∀ n : Int, get_ce_strike_distribution (n : ℚ) = strike_distribution_spec (n : ℚ) := by
  constructor
  · have hf : (⌊((24560 : ℚ) + 99) / 100⌋ : Int) = 246 := by
      rw [Int.floor_eq_iff] ; norm_num
    simp only [get_ce_strike_distribution, hf]
    norm_num
  · intro n
    simp only [get_ce_strike_distribution, strike_distribution_spec, floor_add99_div100]

/-- Witness for C7 at the integer price 25010: the base rounds up to 25100. -/
theorem C7_distribution_witness :
    get_ce_strike_distribution ((25010 : Int) : ℚ)
      = strike_distribution_spec ((25010 : Int) : ℚ) :=
  (C7_distribution_spec).2 25010

/-! ### Position Reconciler

The Broker Gateway's `kite.positions()` read is embedded as an
`Except GatewayFault (List RawPosition)` input: `.error` is a raised
exception, `.ok` the `['net']` list.  Dictionaries keyed by strike are
insertion-ordered association lists, matching Python `dict`. -/

structure GatewayFault where
  msg : String
deriving DecidableEq

structure RawPosition where
  tradingsymbol : String
  product : String
  quantity : Int
deriving DecidableEq

/-- Whether `pat` matches at the head of `s`. -/
def headMatch : List Char → List Char → Bool
  | _, [] => true
  | [], _ :: _ => false
  | c :: s, p :: ps => c = p && headMatch s ps

/-- Python's `pat in s` substring containment. -/
def containsSub : List Char → List Char → Bool
  | [], pat => pat.isEmpty
  | c :: rest, pat => headMatch (c :: rest) pat || containsSub rest pat

def strContains (s pat : String) : Bool := containsSub s.data pat.data

/-- Maximal leading digit run of a character list, with the remainder. -/
def digitRun : List Char → List Char × List Char
  | [] => ([], [])
  | c :: cs =>
    if '0' ≤ c ∧ c ≤ '9' then
      let r := digitRun cs
      (c :: r.1, r.2)
    else ([], c :: cs)

def digitsToNat (l : List Char) : Nat :=
  l.foldl (fun a c => 10 * a + (c.toNat - 48)) 0

def isUpperAZ (c : Char) : Bool := decide ('A' ≤ c ∧ c ≤ 'Z')

def isDigitChar (c : Char) : Bool := decide ('0' ≤ c ∧ c ≤ '9')

/-- Try `re.search(r'NIFTY\d{2}[A-Z]{3}(\d+)CE', _)` at the head of the
list.  The `\d+` group is the maximal digit run: a shorter (backtracked)
run would be followed by a digit, never by `C`, so greedy matching without
backtracking is exact here. -/
def matchNiftyCEAt (l : List Char) : Option Int :=
  match l with
  | 'N' :: 'I' :: 'F' :: 'T' :: 'Y' :: d1 :: d2 :: a1 :: a2 :: a3 :: rest =>
    if isDigitChar d1 && isDigitChar d2 && isUpperAZ a1 && isUpperAZ a2 && isUpperAZ a3 then
      match digitRun rest with
      | ([], _) => none
      | (c :: cs, 'C' :: 'E' :: _) => some (digitsToNat (c :: cs))
      | (_ :: _, _) => none
    else none
  | _ => none

/-- `re.search` scans start positions left to right. -/
def searchNiftyCE : List Char → Option Int
  | [] => none
  | c :: cs =>
    match matchNiftyCEAt (c :: cs) with
    | some n => some n
    | none => searchNiftyCE cs

/-- `re.search(r'(\d{5})CE$', _)`: the only start position compatible with
the `$` anchor is `len - 7`, so the symbol matches iff it ends in five
digits followed by `CE`. -/
def matchGoldmCE (l : List Char) : Option Int :=
  match l.reverse with
  | 'E' :: 'C' :: d1 :: d2 :: d3 :: d4 :: d5 :: _ =>
    if isDigitChar d1 && isDigitChar d2 && isDigitChar d3 && isDigitChar d4
        && isDigitChar d5 then
      some (digitsToNat [d5, d4, d3, d2, d1])
    else none
  | _ => none

/-- Python `dict.get(k, d)` on an insertion-ordered association list. -/
def dictGetD (m : List (Int × Int)) (k : Int) (d : Int) : Int :=
  match m.find? (fun p => p.1 == k) with
  | some p => p.2
  | none => d

/-- Python `m[k] = v`: replace in place if the key exists, else append. -/
def dictSet (m : List (Int × Int)) (k : Int) (v : Int) : List (Int × Int) :=
  if m.any (fun p => p.1 == k) then
    m.map (fun p => if p.1 == k then (k, v) else p)
  else m ++ [(k, v)]

def dictSum (m : List (Int × Int)) : Int := m.foldl (fun a p => a + p.2) 0

/-- `get_current_position(kite)` from `Nifty_futuresbot_3lots.py`: only the
`kite.positions()['net']` read sits in a `try`, whose `except` returns
`(0, "")`; matching long NRML NIFTY positions are then summed in lots
(floor division by the symbol's lot size). -/
def get_current_position
    (positions : Except GatewayFault (List RawPosition)) : Int × String :=
  match positions with
  | .error _ => (0, "")
  | .ok ps =>
    (ps.foldl (fun (acc : Int × String) (p : RawPosition) =>
      if strContains p.tradingsymbol "NIFTY" && p.product == "NRML"
          && decide (0 < p.quantity) then
        (acc.1 + p.quantity.fdiv (get_nifty_lot_size p.tradingsymbol : Int),
          p.tradingsymbol)
      else acc) (((0 : Int), "")))

/-- The retry loop of `get_current_position` in `goldm_futures_15lots.py`:
attempts `1..retries` against the gateway, returning the first successful
read; `none` models the all-attempts-failed path. -/
def fetchPositionsLoop (g : Nat → Except GatewayFault (List RawPosition)) :
    Nat → Nat → Option (List RawPosition)
  | _, 0 => none
  | attempt, r + 1 =>
    match g attempt with
    | .ok ps => some ps
    | .error _ => fetchPositionsLoop g (attempt + 1) r

/-- `get_current_position(kite, retries=3)` from `goldm_futures_15lots.py`:
returns `(0, "")` after exhausted retries, else sums raw GOLDM NRML long
quantities (MCX GOLDM lots are the raw quantity). -/
def get_current_position_goldm
    (g : Nat → Except GatewayFault (List RawPosition)) (retries : Nat) :
    Int × String :=
  match fetchPositionsLoop g 1 retries with
  | none => (0, "")
  | some ps =>
    (ps.foldl (fun (acc : Int × String) (p : RawPosition) =>
      if strContains p.tradingsymbol "GOLDM" && p.product == "NRML"
          && decide (0 < p.quantity) then
        (acc.1 + p.quantity, p.tradingsymbol)
      else acc) (((0 : Int), "")))

/-- `get_existing_ce_positions(kite)` from `Nifty_hedgebot_3lots.py`.  The
`kite.positions()` call is NOT wrapped in any `try`, so a gateway fault
propagates (`.error`).  On success, short NRML NIFTY CE positions are
aggregated per parsed strike as `abs(quantity // 75)` lots. -/
def get_existing_ce_positions
    (positions : Except GatewayFault (List RawPosition)) :
    Except GatewayFault (List (Int × Int)) :=
  match positions with
  | .error e => .error e
  | .ok ps =>
    .ok (ps.foldl (fun (ce_pos : List (Int × Int)) (p : RawPosition) =>
      if strContains p.tradingsymbol "NIFTY" && strContains p.tradingsymbol "CE"
          && p.product == "NRML" && decide (p.quantity < 0) then
        match searchNiftyCE p.tradingsymbol.data with
        | some strike =>
          dictSet ce_pos strike
            (dictGetD ce_pos strike 0 + ((p.quantity.fdiv 75).natAbs : Int))
        | none => ce_pos
      else ce_pos) ([] : List (Int × Int)))

/-- `get_existing_ce_positions(kite)` from `goldm_cehedgebot_15lots.py`:
same shape, GOLDM symbols, `(\d{5})CE$` strikes, `abs(quantity)` lots;
again no `try`, so faults propagate. -/
def get_existing_ce_positions_goldm
    (positions : Except GatewayFault (List RawPosition)) :
    Except GatewayFault (List (Int × Int)) :=
  match positions with
  | .error e => .error e
  | .ok ps =>
    .ok (ps.foldl (fun (ce_pos : List (Int × Int)) (p : RawPosition) =>
      if strContains p.tradingsymbol "GOLDM" && strContains p.tradingsymbol "CE"
          && p.product == "NRML" && decide (p.quantity < 0) then
        match matchGoldmCE p.tradingsymbol.data with
        | some strike =>
          dictSet ce_pos strike
            (dictGetD ce_pos strike 0 + (p.quantity.natAbs : Int))
        | none => ce_pos
      else ce_pos) ([] : List (Int × Int)))

/-- C2 counterexample: a gateway read fault is NOT turned into an empty
strike map by `get_existing_ce_positions` — it propagates unchanged, so
"every position reconciler returns an empty/zero result" is false. -/
theorem C2_reconciler_counterexample :
    get_existing_ce_positions (Except.error ⟨"read failed"⟩)
      = Except.error ⟨"read failed"⟩ ∧
    get_existing_ce_positions (Except.error ⟨"read failed"⟩) ≠ Except.ok [] ∧
    get_existing_ce_positions_goldm (Except.error ⟨"read failed"⟩) ≠ Except.ok [] := by
  refine ⟨rfl, by simp [get_existing_ce_positions],
    by simp [get_existing_ce_positions_goldm]⟩

/-- C2 (amended): only the futures reconcilers degrade a gateway read fault
to the empty result `(0, "")`; the option-strike reconcilers in both hedge
bots have no handler and propagate every fault to their caller. -/
theorem C2_reconciler_fault_behavior :
    (∀ f : GatewayFault, get_current_position (Except.error f) = (0, "")) ∧
    (∀ f : GatewayFault,
      get_current_position_goldm (fun _ => Except.error f) 3 = (0, "")) ∧
    (∀ f : GatewayFault,
      get_existing_ce_positions (Except.error f) = Except.error f) ∧
    (∀ f : GatewayFault,
      get_existing_ce_positions_goldm (Except.error f) = Except.error f) :=
  ⟨fun _ => rfl, fun _ => rfl, fun _ => rfl, fun _ => rfl⟩

/-- Concrete instance of C2 at the fault "network down". -/
theorem C2_reconciler_fault_witness :
    get_current_position (Except.error ⟨"network down"⟩) = (0, "") ∧
    get_existing_ce_positions (Except.error ⟨"network down"⟩)
      = Except.error ⟨"network down"⟩ :=
  ⟨(C2_reconciler_fault_behavior).1 ⟨"network down"⟩,
    (C2_reconciler_fault_behavior).2.2.1 ⟨"network down"⟩⟩

/-! ### Order Executor

`place_kite_order` (market futures orders, retries=3) and
`place_ce_sell_order` (limit hedge orders, MAX_ATTEMPTS=5).  The gateway is
an oracle indexed by attempt number; timing (`time.sleep`) is elided by the
pure embedding.  Totality of the Lean functions models "returns without
raising". -/

def DRY_RUN : Bool := false

def MAX_ATTEMPTS : Nat := 5

/-- The `for attempt in range(1, retries + 1)` loop of `place_kite_order`:
the pair returned is (number of the attempt that settled the loop, success).
When every attempt fails the loop falls through to `return False` having
made exactly `retries` attempts. -/
def placeOrderLoop (g : Nat → Except GatewayFault Unit) :
    Nat → Nat → Nat × Bool
  | attempt, 0 => (attempt - 1, false)
  | attempt, r + 1 =>
    match g attempt with
    | .ok _ => (attempt, true)
    | .error _ => placeOrderLoop g (attempt + 1) r

/-- `place_kite_order(kite, symbol, quantity, txn_type, retries=3)` from
`Nifty_futuresbot_3lots.py`: converts lots to raw quantity via the lot
size, short-circuits under DRY_RUN, otherwise drives the retry loop.
The gateway oracle receives (attempt, full_qty). -/
def place_kite_order (g : Nat → Nat → Except GatewayFault Unit)
    (symbol : String) (quantity : Nat) (retries : Nat) : Nat × Bool :=
  let lot_size := get_nifty_lot_size symbol
  let full_qty := quantity * lot_size
  if DRY_RUN then (0, true)
  else placeOrderLoop (fun n => g n full_qty) 1 retries

/-- Outcome of one attempt of `place_ce_sell_order` as observed at the
`for attempt in range(MAX_ATTEMPTS)` level: the target-reached early
return, a COMPLETE fill, a stale order (cancelled, next attempt), or any
raised exception (missing LTP, REJECTED/CANCELLED status, gateway fault —
all caught by the `except` and counted as one failed attempt). -/
inductive CEAttemptOutcome where
  | abortTarget
  | filled
  | stale
  | fault (e : GatewayFault)
deriving DecidableEq

inductive CESellResult where
  | filled (attemptsUsed : Nat)
  | aborted (attemptsUsed : Nat)
  | failed (attemptsUsed : Nat)
deriving DecidableEq

def ceSellLoop (o : Nat → CEAttemptOutcome) : Nat → Nat → CESellResult
  | used, 0 => .failed used
  | used, r + 1 =>
    match o used with
    | .abortTarget => .aborted (used + 1)
    | .filled => .filled (used + 1)
    | .stale => ceSellLoop o (used + 1) r
    | .fault _ => ceSellLoop o (used + 1) r

/-- `place_ce_sell_order` from `Nifty_hedgebot_3lots.py`: up to
`MAX_ATTEMPTS` attempts, then the terminal "All attempts failed" outcome.
(`goldm_cehedgebot_15lots.py` calls a function of this name but never
defines or imports it, which is what kills its rebalance swaps.) -/
def place_ce_sell_order (o : Nat → CEAttemptOutcome) : CESellResult :=
  ceSellLoop o 0 MAX_ATTEMPTS

lemma placeOrderLoop_all_fail (ferr : Nat → GatewayFault) :
    ∀ (r attempt : Nat),
      placeOrderLoop (fun n => Except.error (ferr n)) attempt r
        = (attempt + r - 1, false) := by
  intro r
  induction r with
  | zero => intro attempt; rfl
  | succ m ih =>
    intro attempt
    show placeOrderLoop _ (attempt + 1) m = _
    rw [ih (attempt + 1)]
    congr 1
    omega

lemma ceSellLoop_all_fault (oerr : Nat → GatewayFault) :
    ∀ (r used : Nat),
      ceSellLoop (fun n => CEAttemptOutcome.fault (oerr n)) used r
        = CESellResult.failed (used + r) := by
  intro r
  induction r with
  | zero => intro used; rfl
  | succ m ih =>
    intro used
    show ceSellLoop _ (used + 1) m = _
    rw [ih (used + 1)]
    congr 1
    omega

/-- C6: against a gateway that raises on every placement attempt, the
market-order primitive makes exactly `retries` attempts (3 as configured)
and returns the terminal failure `false`, and the limit-order primitive
makes exactly `MAX_ATTEMPTS = 5` attempts and returns the terminal
`failed` outcome — neither ever raises (both are total functions). -/
theorem C6_retry_budget (ferr : Nat → Nat → GatewayFault)
    (symbol : String) (quantity : Nat) (oerr : Nat → GatewayFault) :
    (∀ retries : Nat,
      place_kite_order (fun n q => Except.error (ferr n q)) symbol quantity retries
        = (retries, false)) ∧
    place_kite_order (fun n q => Except.error (ferr n q)) symbol quantity 3
      = (3, false) ∧
    place_ce_sell_order (fun n => CEAttemptOutcome.fault (oerr n))
      = CESellResult.failed 5 := by
  have hall : ∀ retries : Nat,
      place_kite_order (fun n q => Except.error (ferr n q)) symbol quantity retries
        = (retries, false) := by
    intro retries
    show placeOrderLoop _ 1 retries = _
    rw [placeOrderLoop_all_fail (fun n => ferr n (quantity * get_nifty_lot_size symbol))
      retries 1]
    congr 1
    omega
  refine ⟨hall, hall 3, ?_⟩
  show ceSellLoop _ 0 MAX_ATTEMPTS = _
  rw [ceSellLoop_all_fault oerr MAX_ATTEMPTS 0]
  rfl

/-- Concrete instance of C6 at an always-failing gateway stub. -/
theorem C6_retry_budget_witness :
    place_kite_order (fun _ _ => Except.error ⟨"gateway down"⟩)
        "NIFTY25JUNFUT" 1 3 = (3, false) ∧
    place_ce_sell_order (fun _ => CEAttemptOutcome.fault ⟨"gateway down"⟩)
      = CESellResult.failed 5 :=
  ⟨(C6_retry_budget (fun _ _ => ⟨"gateway down"⟩) "NIFTY25JUNFUT" 1
      (fun _ => ⟨"gateway down"⟩)).2.1,
    (C6_retry_budget (fun _ _ => ⟨"gateway down"⟩) "NIFTY25JUNFUT" 1
      (fun _ => ⟨"gateway down"⟩)).2.2⟩

/-! ### Greedy 1-lot swap matcher (`goldm_cehedgebot_15lots.py`, rebalance)

The `while oi < len(exit_strikes) and ei < len(enter_strikes)` loop.
`goldm_cehedgebot_15lots.py` never defines or imports
`place_ce_sell_order`, yet line 186 calls it, inside the loop's `try`:
every iteration that reaches the sell leg raises `NameError` there, and
the bare `except` at line 195 catches it.  The decrement and
index-advance code at lines 188-194 is therefore unreachable, so one
iteration has exactly two observable outcomes:

* `fail`      — an exception at or before the buy leg (missing LTP, a
  REJECTED/CANCELLED buyback, a gateway fault), or the stale-buy
  cancel-and-`continue` path: no order executed, state unchanged;
* `buyFilled` — the buy-to-cover limit order fills; the subsequent
  `place_ce_sell_order` call then raises `NameError` before any
  decrement: one real buy executed, state otherwise unchanged.

Neither outcome modifies `exit_strikes`, `enter_strikes`, `oi` or `ei`,
so the loop condition never changes and the loop keeps retrying the
same (exit, enter) pair. -/

inductive GoldmSwapOutcome where
  | buyFilled
  | fail
deriving DecidableEq

structure MatcherState where
  exit_strikes : List (Int × Int)
  enter_strikes : List (Int × Int)
  oi : Nat
  ei : Nat
  buys : List Int
  sells : List Int
  attempts : List (Int × Int)
  finished : Bool
deriving DecidableEq

/-- The `(exit_strike, enter_strike)` pair the loop body works on. -/
def currentPair (st : MatcherState) : Int × Int :=
  ((st.exit_strikes.getD st.oi (0, 0)).1, (st.enter_strikes.getD st.ei (0, 0)).1)

/-- One iteration of the loop body, given the iteration's outcome.  In
both cases the exception is swallowed before lines 188-194 run, so
nothing changes except the executed-buy record and the attempt trace. -/
def matcherStep (out : GoldmSwapOutcome) (st : MatcherState) : MatcherState :=
  match out with
  | .fail =>
    { exit_strikes := st.exit_strikes
      enter_strikes := st.enter_strikes
      oi := st.oi
      ei := st.ei
      buys := st.buys
      sells := st.sells
      attempts := st.attempts ++ [currentPair st]
      finished := st.finished }
  | .buyFilled =>
    { exit_strikes := st.exit_strikes
      enter_strikes := st.enter_strikes
      oi := st.oi
      ei := st.ei
      buys := st.buys ++ [(st.exit_strikes.getD st.oi (0, 0)).1]
      sells := st.sells
      attempts := st.attempts ++ [currentPair st]
      finished := st.finished }

def setFinished (st : MatcherState) (b : Bool) : MatcherState :=
  { exit_strikes := st.exit_strikes
    enter_strikes := st.enter_strikes
    oi := st.oi
    ei := st.ei
    buys := st.buys
    sells := st.sells
    attempts := st.attempts
    finished := b }

/-- The matcher loop with explicit fuel; `finished = true` records that the
loop condition became false (rather than the fuel running out). -/
def matcherGo (o : Nat → GoldmSwapOutcome) : Nat → MatcherState → MatcherState
  | 0, st =>
    if st.oi < st.exit_strikes.length ∧ st.ei < st.enter_strikes.length then
      setFinished st false
    else setFinished st true
  | fuel + 1, st =>
    if st.oi < st.exit_strikes.length ∧ st.ei < st.enter_strikes.length then
      matcherGo o fuel (matcherStep (o st.attempts.length) st)
    else setFinished st true

lemma matcherGo_zero (o : Nat → GoldmSwapOutcome) (st : MatcherState) :
    matcherGo o 0 st
      = if st.oi < st.exit_strikes.length ∧ st.ei < st.enter_strikes.length then
          setFinished st false
        else setFinished st true := rfl

lemma matcherGo_succ (o : Nat → GoldmSwapOutcome) (fuel : Nat) (st : MatcherState) :
    matcherGo o (fuel + 1) st
      = if st.oi < st.exit_strikes.length ∧ st.ei < st.enter_strikes.length then
          matcherGo o fuel (matcherStep (o st.attempts.length) st)
        else setFinished st true := rfl

def initMatcher (to_exit to_enter : List (Int × Int)) : MatcherState :=
  { exit_strikes := to_exit, enter_strikes := to_enter, oi := 0, ei := 0,
    buys := [], sells := [], attempts := [], finished := false }

def run_rebalance_matcher (o : Nat → GoldmSwapOutcome) (fuel : Nat)
    (to_exit to_enter : List (Int × Int)) : MatcherState :=
  matcherGo o fuel (initMatcher to_exit to_enter)

lemma matcherStep_fields (out : GoldmSwapOutcome) (st : MatcherState) :
    (matcherStep out st).exit_strikes = st.exit_strikes ∧
    (matcherStep out st).enter_strikes = st.enter_strikes ∧
    (matcherStep out st).oi = st.oi ∧
    (matcherStep out st).ei = st.ei ∧
    (matcherStep out st).sells = st.sells ∧
    (matcherStep out st).attempts = st.attempts ++ [currentPair st] := by
  cases out <;> exact ⟨rfl, rfl, rfl, rfl, rfl, rfl⟩

lemma currentPair_step (out : GoldmSwapOutcome) (st : MatcherState) :
    currentPair (matcherStep out st) = currentPair st := by
  cases out <;> rfl

/-- The matcher never records a sell on any run: the sell leg of every
swap dies in a `NameError` before `place_ce_sell_order` could exist. -/
lemma matcherGo_sells : ∀ (o : Nat → GoldmSwapOutcome) (fuel : Nat)
    (st : MatcherState), (matcherGo o fuel st).sells = st.sells := by
  intro o fuel
  induction fuel with
  | zero =>
    intro st
    rw [matcherGo_zero]
    by_cases h : st.oi < st.exit_strikes.length ∧ st.ei < st.enter_strikes.length
    · rw [if_pos h]
      rfl
    · rw [if_neg h]
      rfl
  | succ m ih =>
    intro st
    rw [matcherGo_succ]
    by_cases h : st.oi < st.exit_strikes.length ∧ st.ei < st.enter_strikes.length
    · rw [if_pos h, ih]
      exact (matcherStep_fields (o st.attempts.length) st).2.2.2.2.1
    · rw [if_neg h]
      rfl

/-- While the loop condition holds, no amount of fuel changes the plan
lists, the indices, or the sells: the loop never reaches `finished` and
attempts the same pair once per unit of fuel. -/
lemma matcherGo_stuck : ∀ (o : Nat → GoldmSwapOutcome) (fuel : Nat)
    (st : MatcherState),
    st.oi < st.exit_strikes.length → st.ei < st.enter_strikes.length →
    (matcherGo o fuel st).finished = false ∧
    (matcherGo o fuel st).exit_strikes = st.exit_strikes ∧
    (matcherGo o fuel st).enter_strikes = st.enter_strikes ∧
    (matcherGo o fuel st).oi = st.oi ∧
    (matcherGo o fuel st).ei = st.ei ∧
    (matcherGo o fuel st).attempts
      = st.attempts ++ List.replicate fuel (currentPair st) := by
  intro o fuel
  induction fuel with
  | zero =>
    intro st h1 h2
    rw [matcherGo_zero, if_pos ⟨h1, h2⟩]
    refine ⟨rfl, rfl, rfl, rfl, rfl, ?_⟩
    show st.attempts = st.attempts ++ []
    rw [List.append_nil]
  | succ m ih =>
    intro st h1 h2
    rw [matcherGo_succ, if_pos ⟨h1, h2⟩]
    obtain ⟨f1, f2, f3, f4, f5, f6⟩ := matcherStep_fields (o st.attempts.length) st
    have h1' : (matcherStep (o st.attempts.length) st).oi
        < (matcherStep (o st.attempts.length) st).exit_strikes.length := by
      rw [f1, f3]
      exact h1
    have h2' : (matcherStep (o st.attempts.length) st).ei
        < (matcherStep (o st.attempts.length) st).enter_strikes.length := by
      rw [f2, f4]
      exact h2
    obtain ⟨g1, g2, g3, g4, g5, g6⟩ := ih (matcherStep (o st.attempts.length) st) h1' h2'
    refine ⟨g1, by rw [g2, f1], by rw [g3, f2], by rw [g4, f3], by rw [g5, f4], ?_⟩
    rw [g6, f6, currentPair_step, List.append_assoc, List.singleton_append,
      List.replicate_succ]

/-- C3 (code bug): at the failing plan `toExit = {24900: 1}`,
`toEnter = {25000: 1}` — representative of any non-empty plan — the
rebalance matcher never terminates: whatever each iteration's outcome and
however much fuel it burns, the loop is still unfinished, neither entry
was decremented, neither index advanced, and every attempt was the same
first pair.  Line 186 calls `place_ce_sell_order`, undefined in
`goldm_cehedgebot_15lots.py`, so `NameError` is raised before the
decrement at lines 188-194 and the `except` swallows it. -/
theorem C3_matcher_never_terminates (o : Nat → GoldmSwapOutcome) (fuel : Nat) :
    (run_rebalance_matcher o fuel [(24900, 1)] [(25000, 1)]).finished = false ∧
    (run_rebalance_matcher o fuel [(24900, 1)] [(25000, 1)]).exit_strikes
      = [(24900, 1)] ∧
    (run_rebalance_matcher o fuel [(24900, 1)] [(25000, 1)]).enter_strikes
      = [(25000, 1)] ∧
    (run_rebalance_matcher o fuel [(24900, 1)] [(25000, 1)]).oi = 0 ∧
    (run_rebalance_matcher o fuel [(24900, 1)] [(25000, 1)]).ei = 0 ∧
    (run_rebalance_matcher o fuel [(24900, 1)] [(25000, 1)]).attempts
      = List.replicate fuel (24900, 25000) := by
  obtain ⟨g1, g2, g3, g4, g5, g6⟩ :=
    matcherGo_stuck o fuel (initMatcher [(24900, 1)] [(25000, 1)])
      (by decide) (by decide)
  have hrun : run_rebalance_matcher o fuel [(24900, 1)] [(25000, 1)]
      = matcherGo o fuel (initMatcher [(24900, 1)] [(25000, 1)]) := rfl
  rw [hrun]
  refine ⟨g1, g2, g3, g4, g5, ?_⟩
  rw [g6]
  rfl

/-- C4 counterexample: with `toExit = [(24900, 1)]`, `toEnter = [(25100, 1)]`
and three failing iterations (e.g. the LTP read raising each time), the
matcher attempts the pair `(24900, 25100)` three times in a row within the
same rebalance cycle and is still running — the claim that the pair is
"next attempted only on a later cycle" is false. -/
theorem C4_same_pair_retried_counterexample :
    (run_rebalance_matcher (fun _ => GoldmSwapOutcome.fail) 3
        [(24900, 1)] [(25100, 1)]).attempts
      = [(24900, 25100), (24900, 25100), (24900, 25100)] ∧
    (run_rebalance_matcher (fun _ => GoldmSwapOutcome.fail) 3
        [(24900, 1)] [(25100, 1)]).finished = false := by
  refine ⟨by decide, by decide⟩

/-- C4 (amended): a swap that fails mid-pair is aborted and logged, but it
leaves both sequences and both indices exactly as they were and appends
the pair to the attempt trace, so the loop's next iteration immediately
retries the same (exit, enter) pair within the same cycle — it never moves
on to another pair.  (In this module every iteration fails this way, the
sell leg being an unconditional `NameError`.) -/
theorem C4_fail_step_no_advance (st : MatcherState) :
    (matcherStep GoldmSwapOutcome.fail st).oi = st.oi ∧
    (matcherStep GoldmSwapOutcome.fail st).ei = st.ei ∧
    (matcherStep GoldmSwapOutcome.fail st).exit_strikes = st.exit_strikes ∧
    (matcherStep GoldmSwapOutcome.fail st).enter_strikes = st.enter_strikes ∧
    (matcherStep GoldmSwapOutcome.fail st).attempts
      = st.attempts ++ [currentPair st] ∧
    currentPair (matcherStep GoldmSwapOutcome.fail st) = currentPair st :=
  ⟨rfl, rfl, rfl, rfl, rfl, rfl⟩

/-- Concrete instance of C4 at a one-pair state. -/
theorem C4_fail_step_no_advance_witness :
    (matcherStep GoldmSwapOutcome.fail (initMatcher [(24900, 1)] [(25100, 1)])).oi
      = (initMatcher [(24900, 1)] [(25100, 1)]).oi ∧
    (matcherStep GoldmSwapOutcome.fail (initMatcher [(24900, 1)] [(25100, 1)])).exit_strikes
      = (initMatcher [(24900, 1)] [(25100, 1)]).exit_strikes :=
  ⟨(C4_fail_step_no_advance (initMatcher [(24900, 1)] [(25100, 1)])).1,
    (C4_fail_step_no_advance (initMatcher [(24900, 1)] [(25100, 1)])).2.2.1⟩

/-- C5 (code bug): the matcher can buy but can never sell — `sells` is
empty on every run, for any outcomes, fuel and plan — and on the
realizable trajectory where the first buy-to-cover fills, one lot has
been bought back against zero lots sold to open, so the two sides are not
balanced. -/
theorem C5_swap_never_balanced :
    (∀ (o : Nat → GoldmSwapOutcome) (fuel : Nat)
      (to_exit to_enter : List (Int × Int)),
      (run_rebalance_matcher o fuel to_exit to_enter).sells = []) ∧
    (run_rebalance_matcher (fun _ => GoldmSwapOutcome.buyFilled) 1
        [(24900, 1)] [(25000, 1)]).buys = [24900] ∧
    (run_rebalance_matcher (fun _ => GoldmSwapOutcome.buyFilled) 1
        [(24900, 1)] [(25000, 1)]).buys.length
      ≠ (run_rebalance_matcher (fun _ => GoldmSwapOutcome.buyFilled) 1
          [(24900, 1)] [(25000, 1)]).sells.length := by
  refine ⟨fun o fuel te tn => matcherGo_sells o fuel (initMatcher te tn),
    by decide, by decide⟩

/-! ### Calendar dates for the hedge engines

`Date` mirrors Python's `datetime.date`; `toOrdinalDate` is
`date.toordinal()` (proleptic Gregorian, ordinal 1 = 0001-01-01). -/

structure Date where
  year : Nat
  month : Nat
  day : Nat
deriving DecidableEq

def isLeap (y : Nat) : Bool := y % 4 == 0 && (y % 100 != 0 || y % 400 == 0)

def daysInMonth (y m : Nat) : Nat :=
  if m = 2 then (if isLeap y then 29 else 28)
  else if m = 4 ∨ m = 6 ∨ m = 9 ∨ m = 11 then 30
  else 31

def daysBeforeYear (y : Nat) : Nat :=
  365 * (y - 1) + (y - 1) / 4 - (y - 1) / 100 + (y - 1) / 400

def daysBeforeMonth (y m : Nat) : Nat :=
  ((List.range (m - 1)).map (fun i => daysInMonth y (i + 1))).sum

def toOrdinalDate (d : Date) : Int :=
  ((daysBeforeYear d.year + daysBeforeMonth d.year d.month + d.day : Nat) : Int)

def dateWeekday (d : Date) : Int := weekday (toOrdinalDate d)

/-- `day - timedelta(days=1)` on a calendar date. -/
def prevDay (d : Date) : Date :=
  if d.day = 1 then
    if d.month = 1 then ⟨d.year - 1, 12, 31⟩
    else ⟨d.year, d.month - 1, daysInMonth d.year (d.month - 1)⟩
  else ⟨d.year, d.month, d.day - 1⟩

/-- The `while last_day.weekday() != 3` walk-back; at most 6 steps are ever
taken since weekdays cycle with period 7, so fuel 7 is exact. -/
def backToThursday : Nat → Date → Date
  | 0, d => d
  | fuel + 1, d => if dateWeekday d = 3 then d else backToThursday fuel (prevDay d)

/-- `get_last_thursday(year, month)` from both hedge bots: step back from
the month's last calendar day to the most recent Thursday. -/
def get_last_thursday (year month : Nat) : Date :=
  backToThursday 7
    (prevDay (if month < 12 then ⟨year, month + 1, 1⟩ else ⟨year + 1, 1, 1⟩))

/-- `get_next_month_expiry(current_expiry)` from both hedge bots. -/
def get_next_month_expiry (e : Date) : Date :=
  get_last_thursday (e.year + (if e.month = 12 then 1 else 0))
    (if e.month = 12 then 1 else e.month + 1)

/-- The expiry both hedge bots compute once at startup, before their
`while True` loop: the current month's last Thursday, advanced to the next
month when `(expiry - today).days <= 4`. -/
def startup_expiry (today : Date) : Date :=
  if toOrdinalDate (get_last_thursday today.year today.month)
      - toOrdinalDate today ≤ 4 then
    get_next_month_expiry (get_last_thursday today.year today.month)
  else get_last_thursday today.year today.month

/-! ### Hedge engine cycles (C9, C10)

One loop iteration of each hedge bot, modelled as a pure function from the
cycle's gateway reads to the list of broker-state-changing calls it emits.
Order submissions are recorded as intents (the Order Executor's internal
retries/cancellations are inside `place_ce_sell_order`, modelled above);
reads (`positions`, `ltp`, `instruments`) are inputs, not effects. -/

inductive BrokerEffect where
  | submitSell (strike : Int) (expiry : Date) (lots : Int)
  | submitBuy (strike : Int) (expiry : Date) (lots : Int)
  | cancelOrder
deriving DecidableEq

def effectExpiry : BrokerEffect → Option Date
  | .submitSell _ e _ => some e
  | .submitBuy _ e _ => some e
  | .cancelOrder => none

def LOTS_TO_SELL_nifty : Int := 3

def LOTS_TO_SELL_goldm : Int := 15

/-- Extract the strike map from a successful read (the hedge-bot loop body
runs only when the un-guarded `kite.positions()` call returned). -/
def ce_positions_of (ps : List RawPosition) : List (Int × Int) :=
  match get_existing_ce_positions (Except.ok ps) with
  | .ok m => m
  | .error _ => []

def ce_positions_of_goldm (ps : List RawPosition) : List (Int × Int) :=
  match get_existing_ce_positions_goldm (Except.ok ps) with
  | .ok m => m
  | .error _ => []

/-- `get_total_ce_lots`: sum of the strike map's values. -/
def get_total_ce_lots_nifty (ps : List RawPosition) : Int :=
  dictSum (ce_positions_of ps)

def get_total_ce_lots_goldm (ps : List RawPosition) : Int :=
  dictSum (ce_positions_of_goldm ps)

/-- The plan diff loop shared by both hedge bots: for each strike of the
current∪target key set (`strikes` carries Python's unspecified set-iteration
order), `cur > tgt` contributes to `to_exit`, `cur < tgt` to `to_enter`. -/
def compute_plan (strikes : List Int) (cur tgt : List (Int × Int)) :
    List (Int × Int) × List (Int × Int) :=
  strikes.foldl (fun acc strike =>
    if dictGetD tgt strike 0 < dictGetD cur strike 0 then
      (acc.1 ++ [(strike, dictGetD cur strike 0 - dictGetD tgt strike 0)], acc.2)
    else if dictGetD cur strike 0 < dictGetD tgt strike 0 then
      (acc.1, acc.2 ++ [(strike, dictGetD tgt strike 0 - dictGetD cur strike 0)])
    else acc) ([], [])

/-- The entry round `for strike, qty in dist.items(): for _ in range(qty):
place_ce_sell_order(kite, strike, expiry, 1)`. -/
def entry_orders (dist : List (Int × Int)) (expiry : Date) : List BrokerEffect :=
  dist.flatMap (fun kv =>
    List.replicate kv.2.toNat (BrokerEffect.submitSell kv.1 expiry 1))

structure NiftyCycleOut where
  effects : List BrokerEffect
  to_exit : List (Int × Int)
  to_enter : List (Int × Int)
deriving DecidableEq

/-- One iteration of the `while True` loop of `run_nifty_ce_hedge_bot`:
below-target holdings start an entry round; otherwise the rebalance branch
computes `to_exit`/`to_enter`, prints them, and does nothing else. -/
def run_nifty_hedge_cycle (ps : List RawPosition) (fut_price : ℚ)
    (strikes : List Int) (expiry : Date) : NiftyCycleOut :=
  if get_total_ce_lots_nifty ps < LOTS_TO_SELL_nifty then
    { effects := entry_orders (get_ce_strike_distribution fut_price) expiry
      to_exit := []
      to_enter := [] }
  else
    { effects := []
      to_exit := (compute_plan strikes (ce_positions_of ps)
        (get_ce_strike_distribution fut_price)).1
      to_enter := (compute_plan strikes (ce_positions_of ps)
        (get_ce_strike_distribution fut_price)).2 }

/-- C9: on every cycle where the reconciled short-CE total is at least the
3-lot target, the Nifty hedge engine emits no broker-state-changing call at
all — it computes the rebalance plan (`to_exit`/`to_enter` exactly as the
diff loop defines them) and discards it. -/
theorem C9_rebalance_readonly (ps : List RawPosition) (fut_price : ℚ)
    (strikes : List Int) (expiry : Date)
    (h : LOTS_TO_SELL_nifty ≤ get_total_ce_lots_nifty ps) :
    (run_nifty_hedge_cycle ps fut_price strikes expiry).effects = [] ∧
    (run_nifty_hedge_cycle ps fut_price strikes expiry).to_exit
      = (compute_plan strikes (ce_positions_of ps)
          (get_ce_strike_distribution fut_price)).1 ∧
    (run_nifty_hedge_cycle ps fut_price strikes expiry).to_enter
      = (compute_plan strikes (ce_positions_of ps)
          (get_ce_strike_distribution fut_price)).2 := by
  have hnot : ¬ (get_total_ce_lots_nifty ps < LOTS_TO_SELL_nifty) := not_lt.mpr h
  unfold run_nifty_hedge_cycle
  rw [if_neg hnot]
  exact ⟨rfl, rfl, rfl⟩

/-- Witness for C9: holding 3 short lots at strike 25000 (raw quantity
-225, i.e. 3×75), the cycle emits no effects. -/
theorem C9_rebalance_readonly_witness :
    (run_nifty_hedge_cycle [⟨"NIFTY25JUL25000CE", "NRML", -225⟩] 24560
        [25000] ⟨2025, 7, 31⟩).effects = [] :=
  (C9_rebalance_readonly [⟨"NIFTY25JUL25000CE", "NRML", -225⟩] 24560
    [25000] ⟨2025, 7, 31⟩ (by decide)).1

/-- Python `int()` truncation toward zero, used by the GoldM distribution
(`int((fut_price + 999) / 1000)` — true division then truncation). -/
def pyInt (q : ℚ) : Int := if 0 ≤ q then ⌊q⌋ else ⌈q⌉

/-- `get_ce_strike_distribution(fut_price)` from `goldm_cehedgebot_15lots.py`:
1000-point step, offsets +1000/+2000/+3000, 5 lots each. -/
def get_ce_strike_distribution_goldm (fut_price : ℚ) : List (Int × Int) :=
  [(pyInt ((fut_price + 999) / 1000) * 1000 + 1000, 5),
   (pyInt ((fut_price + 999) / 1000) * 1000 + 2000, 5),
   (pyInt ((fut_price + 999) / 1000) * 1000 + 3000, 5)]

/-- The order intents of a rebalance-matcher run: every buy-to-cover uses
the `expiry_code` symbol built from the startup expiry (the sell map is
provably always empty here — `matcherGo_sells` — since the sell leg dies
in a `NameError`; a sell, could it happen, would also carry `expiry`). -/
def matcher_effects (res : MatcherState) (expiry : Date) : List BrokerEffect :=
  res.buys.map (fun s => BrokerEffect.submitBuy s expiry 1)
    ++ res.sells.map (fun s => BrokerEffect.submitSell s expiry 1)

/-- The gateway reads and nondeterminism feeding one iteration of the
GoldM hedge loop: positions, futures LTP, the option chain's available
strikes, the set-iteration order of the plan diff, and the swap-outcome
oracle (with fuel) for the matcher. -/
structure GoldmCycleInput where
  positions : List RawPosition
  fut_price : ℚ
  available_strikes : List Int
  strikes : List Int
  outcomes : Nat → GoldmSwapOutcome
  fuel : Nat

/-- One iteration of the `while True` loop of `run_ce_hedge_bot`
(`goldm_cehedgebot_15lots.py`): filter the target distribution by the
available strikes, then either run an entry round (below 15 lots) or the
swap matcher over the computed plan.  Entry-round submissions are
recorded as intents; in this module the undefined `place_ce_sell_order`
aborts them too, and the omitted repeats of a stuck buy also use
`expiry_code` — neither gap can hide an order with a different expiry. -/
def run_goldm_hedge_cycle (inp : GoldmCycleInput) (expiry : Date) :
    List BrokerEffect :=
  if get_total_ce_lots_goldm inp.positions < LOTS_TO_SELL_goldm then
    entry_orders ((get_ce_strike_distribution_goldm inp.fut_price).filter
      (fun kv => inp.available_strikes.contains kv.1)) expiry
  else
    matcher_effects
      (run_rebalance_matcher inp.outcomes inp.fuel
        (compute_plan inp.strikes (ce_positions_of_goldm inp.positions)
          ((get_ce_strike_distribution_goldm inp.fut_price).filter
            (fun kv => inp.available_strikes.contains kv.1))).1
        (compute_plan inp.strikes (ce_positions_of_goldm inp.positions)
          ((get_ce_strike_distribution_goldm inp.fut_price).filter
            (fun kv => inp.available_strikes.contains kv.1))).2)
      expiry

structure CycleInput where
  positions : List RawPosition
  fut_price : ℚ
  strikes : List Int
deriving DecidableEq

/-- `run_nifty_ce_hedge_bot`: the expiry is computed once from the start
date, before the `while True` loop, and every cycle reuses it. -/
def run_nifty_hedge_bot (start : Date) (inputs : List CycleInput) :
    List BrokerEffect :=
  List.flatten (inputs.map (fun inp =>
    (run_nifty_hedge_cycle inp.positions inp.fut_price inp.strikes
      (startup_expiry start)).effects))

/-- `run_ce_hedge_bot`: likewise, both `expiry` and `expiry_code` are fixed
before the loop (the "# moved inside loop" comment notwithstanding). -/
def run_goldm_hedge_bot (start : Date) (inputs : List GoldmCycleInput) :
    List BrokerEffect :=
  List.flatten (inputs.map (fun inp =>
    run_goldm_hedge_cycle inp (startup_expiry start)))

lemma entry_orders_expiry (dist : List (Int × Int)) (e : Date) :
    ∀ eff ∈ entry_orders dist e, effectExpiry eff = some e := by
  intro eff heff
  unfold entry_orders at heff
  rw [List.mem_flatMap] at heff
  obtain ⟨kv, _, hrep⟩ := heff
  rw [List.eq_of_mem_replicate hrep]
  rfl

lemma matcher_effects_expiry (res : MatcherState) (e : Date) :
    ∀ eff ∈ matcher_effects res e, effectExpiry eff = some e := by
  intro eff heff
  unfold matcher_effects at heff
  rcases List.mem_append.mp heff with hb | hs
  · obtain ⟨s, _, hseq⟩ := List.mem_map.mp hb
    rw [← hseq]
    rfl
  · obtain ⟨s, _, hseq⟩ := List.mem_map.mp hs
    rw [← hseq]
    rfl

lemma nifty_cycle_expiry (ps : List RawPosition) (fp : ℚ) (strikes : List Int)
    (e : Date) :
    ∀ eff ∈ (run_nifty_hedge_cycle ps fp strikes e).effects,
      effectExpiry eff = some e := by
  intro eff heff
  unfold run_nifty_hedge_cycle at heff
  by_cases h : get_total_ce_lots_nifty ps < LOTS_TO_SELL_nifty
  · rw [if_pos h] at heff
    exact entry_orders_expiry _ e eff heff
  · rw [if_neg h] at heff
    simp at heff

lemma goldm_cycle_expiry (inp : GoldmCycleInput) (e : Date) :
    ∀ eff ∈ run_goldm_hedge_cycle inp e, effectExpiry eff = some e := by
  intro eff heff
  unfold run_goldm_hedge_cycle at heff
  by_cases h : get_total_ce_lots_goldm inp.positions < LOTS_TO_SELL_goldm
  · rw [if_pos h] at heff
    exact entry_orders_expiry _ e eff heff
  · rw [if_neg h] at heff
    exact matcher_effects_expiry _ e eff heff

/-- C10: in both hedge engines every broker order emitted during the whole
run — over any number of cycles with arbitrary per-cycle positions, prices,
available strikes and swap outcomes — carries the expiry computed once from
the start date (the current month's last Thursday, advanced to the next
month when 4 or fewer days away); the loop never recomputes it. -/
theorem C10_startup_expiry_fixed (start : Date) (ninputs : List CycleInput)
    (ginputs : List GoldmCycleInput) :
    (∀ eff ∈ run_nifty_hedge_bot start ninputs,
      effectExpiry eff = some (startup_expiry start)) ∧
    (∀ eff ∈ run_goldm_hedge_bot start ginputs,
      effectExpiry eff = some (startup_expiry start)) := by
  constructor
  · intro eff heff
    unfold run_nifty_hedge_bot at heff
    rw [List.mem_flatten] at heff
    obtain ⟨l, hl, hmem⟩ := heff
    obtain ⟨inp, _, hleq⟩ := List.mem_map.mp hl
    rw [← hleq] at hmem
    exact nifty_cycle_expiry inp.positions inp.fut_price inp.strikes
      (startup_expiry start) eff hmem
  · intro eff heff
    unfold run_goldm_hedge_bot at heff
    rw [List.mem_flatten] at heff
    obtain ⟨l, hl, hmem⟩ := heff
    obtain ⟨inp, _, hleq⟩ := List.mem_map.mp hl
    rw [← hleq] at hmem
    exact goldm_cycle_expiry inp (startup_expiry start) eff hmem

/-- Witness for C10: starting 2025-06-10 (expiry 2025-06-26, more than 4
days out), an empty position book triggers an entry round at price 24560,
and the emitted sell order at strike 24900 carries the startup expiry. -/
theorem C10_startup_expiry_fixed_witness :
    BrokerEffect.submitSell 24900 (startup_expiry ⟨2025, 6, 10⟩) 1
        ∈ run_nifty_hedge_bot ⟨2025, 6, 10⟩ [⟨[], 24560, []⟩] ∧
    effectExpiry (BrokerEffect.submitSell 24900 (startup_expiry ⟨2025, 6, 10⟩) 1)
      = some (startup_expiry ⟨2025, 6, 10⟩) := by
  have hf : (⌊((24560 : ℚ) + 99) / 100⌋ : Int) = 246 := by
    rw [Int.floor_eq_iff] ; norm_num
  have hdist : get_ce_strike_distribution 24560
      = [(24900, 1), (25000, 1), (25100, 1)] := by
    simp only [get_ce_strike_distribution, hf]
    norm_num
  have hcyc : run_nifty_hedge_cycle [] 24560 []
      (startup_expiry ⟨2025, 6, 10⟩)
      = { effects := entry_orders [(24900, 1), (25000, 1), (25100, 1)]
            (startup_expiry ⟨2025, 6, 10⟩)
          to_exit := []
          to_enter := [] } := by
    unfold run_nifty_hedge_cycle
    rw [if_pos (by decide), hdist]
  have hmem : BrokerEffect.submitSell 24900 (startup_expiry ⟨2025, 6, 10⟩) 1
      ∈ run_nifty_hedge_bot ⟨2025, 6, 10⟩ [⟨[], 24560, []⟩] := by
    unfold run_nifty_hedge_bot
    simp only [List.map_cons, List.map_nil]
    rw [hcyc]
    simp [entry_orders]
  exact ⟨hmem,
    (C10_startup_expiry_fixed ⟨2025, 6, 10⟩ [⟨[], 24560, []⟩] []).1 _ hmem⟩

end Strategy1
